import Mathlib

/-!
Verification of the telepress publishing pipeline (src/telepress).

The Python source is shallowly embedded: strings are lists of characters
(`Text`), Telegraph content nodes are the inductive `Node` (a Python dict
with tag / attrs / children, or a bare string), and every effectful
collaborator (the Telegraph client, the image encoder, the filesystem)
is passed in as an explicit oracle argument, so each function of the
source becomes a pure, executable Lean function.
-/

set_option maxRecDepth 10000

/-- Python strings are modelled as lists of characters. -/
abbrev Text := List Char

/-- A Telegraph content node: either a bare string or a dict
with a tag, an attribute dict and a children list
(absent attrs / children are modelled as the empty list). -/
inductive Node where
  | text (s : Text)
  | elem (tag : Text) (attrs : List (Text × Text)) (children : List Node)

/- ------------------------------------------------------------------
utils.sanitize_nodes (src/telepress/utils.py lines 53-73)
------------------------------------------------------------------ -/

/-- The header-downgrade applied to a single tag by sanitize_nodes:
h1 becomes h3, h2 becomes h4, h5 and h6 become h4, anything else is kept.
Mirrors the if / elif chain of utils.py lines 62-69. -/
def fixTag (t : Text) : Text :=
  if t = "h1".toList then "h3".toList
  else if t = "h2".toList then "h4".toList
  else if t = "h5".toList ∨ t = "h6".toList then "h4".toList
  else t

mutual

/-- sanitize_nodes applied to one node: fix the tag and recurse
into the children; bare strings are untouched. -/
def sanitizeNode : Node → Node
  | .text s => .text s
  | .elem tag attrs children => .elem (fixTag tag) attrs (sanitize_nodes children)

/-- utils.sanitize_nodes: recursively downgrade headers h1, h2, h5, h6
in a node list (the Python version mutates in place and returns the list;
the embedding returns the new list). -/
def sanitize_nodes : List Node → List Node
  | [] => []
  | n :: ns => sanitizeNode n :: sanitize_nodes ns

end

mutual

/-- True when a node tree carries none of the tags h1, h2, h5, h6. -/
def nodeHeadersOk : Node → Bool
  | .text _ => true
  | .elem tag _ children =>
    decide (tag ≠ "h1".toList ∧ tag ≠ "h2".toList ∧
            tag ≠ "h5".toList ∧ tag ≠ "h6".toList) && nodesHeadersOk children

/-- List version of nodeHeadersOk. -/
def nodesHeadersOk : List Node → Bool
  | [] => true
  | n :: ns => nodeHeadersOk n && nodesHeadersOk ns

end

mutual

/-- The relation claimed of sanitize_nodes, written from the claim text:
the output node matches the input node except that an h1 tag became h3,
an h2 tag became h4, an h5 or h6 tag became h4, and every other tag,
every attribute list and every text node is unchanged. -/
def nodeClaimRel : Node → Node → Bool
  | .text s, .text s' => decide (s' = s)
  | .elem t a c, .elem t' a' c' =>
    decide (a' = a) && nodesClaimRel c c' &&
    (if t = "h1".toList then decide (t' = "h3".toList)
     else if t = "h2".toList then decide (t' = "h4".toList)
     else if t = "h5".toList ∨ t = "h6".toList then decide (t' = "h4".toList)
     else decide (t' = t))
  | _, _ => false

/-- List version of nodeClaimRel, position by position. -/
def nodesClaimRel : List Node → List Node → Bool
  | [], [] => true
  | n :: ns, m :: ms => nodeClaimRel n m && nodesClaimRel ns ms
  | _, _ => false

end

/- ------------------------------------------------------------------
Content chunker (core.py, publish_markdown lines 249-280)
------------------------------------------------------------------ -/

/-- Characters Python str.splitlines treats as line boundaries
(besides the CRLF pair, handled separately). -/
def isNewlineChar (c : Char) : Bool :=
  c = '\n' || c = '\r' || c = Char.ofNat 0x0b || c = Char.ofNat 0x0c ||
  c = Char.ofNat 0x1c || c = Char.ofNat 0x1d || c = Char.ofNat 0x1e ||
  c = Char.ofNat 0x85 || c = Char.ofNat 0x2028 || c = Char.ofNat 0x2029

/-- Split off the first line of a text together with its terminator
(CRLF counts as a single terminator), returning (line, remainder). -/
def takeLine : List Char → List Char × List Char
  | [] => ([], [])
  | c :: rest =>
    if c = '\r' then
      match rest with
      | '\n' :: rest2 => (['\r', '\n'], rest2)
      | _ => (['\r'], rest)
    else if isNewlineChar c then ([c], rest)
    else ((c :: (takeLine rest).1), (takeLine rest).2)

/-- Fuelled loop peeling lines off the front of the text; the fuel is
at least the text length, making the bound unreachable. -/
def splitlinesGo : Nat → List Char → List (List Char)
  | 0, _ => []
  | _, [] => []
  | fuel + 1, c :: rest =>
    (takeLine (c :: rest)).1 :: splitlinesGo fuel (takeLine (c :: rest)).2

/-- Python str.splitlines(keepends=True). -/
def splitlines (text : Text) : List Text := splitlinesGo text.length text

/-- SAFE_CHUNK_SIZE from core.py line 252. -/
def SAFE_CHUNK_SIZE : Nat := 10000

/-- The chunking loop state: finished chunks, the lines of the current
chunk, and the running character count of the current chunk. -/
structure ChunkState where
  chunks : List Text
  current : List Text
  currentLen : Nat

/-- chunks.append("".join(current_chunk)); current_chunk = []; current_len = 0. -/
def flushChunk (st : ChunkState) : ChunkState :=
  { chunks := st.chunks ++ [st.current.flatten], current := [], currentLen := 0 }

/-- Flush only when the current chunk is nonempty (Python list truthiness). -/
def condFlush (st : ChunkState) : ChunkState :=
  if st.current = [] then st else flushChunk st

/-- chunks.append(c) for an already force-split chunk c. -/
def pushChunk (st : ChunkState) (c : Text) : ChunkState :=
  { st with chunks := st.chunks ++ [c] }

/-- The inner loop `while len(line) > SAFE_CHUNK_SIZE` of core.py lines
262-269, force-splitting an over-long line; fuelled, with fuel at least
the line length making the fuel bound unreachable for positive limit. -/
def whileSplit (limit : Nat) : Nat → ChunkState → Text → ChunkState × Text
  | 0, st, line => (st, line)
  | fuel + 1, st, line =>
    if limit < line.length then
      whileSplit limit fuel (pushChunk (condFlush st) (line.take limit)) (line.drop limit)
    else (st, line)

/-- The tail of each loop iteration, core.py lines 271-276: flush the
current chunk when the next line would overflow it, then append the line. -/
def appendLine (limit : Nat) : ChunkState × Text → ChunkState
  | (st, line) =>
    { (if limit < st.currentLen + line.length ∧ st.current ≠ []
        then flushChunk st else st) with
      current := (if limit < st.currentLen + line.length ∧ st.current ≠ []
        then flushChunk st else st).current ++ [line],
      currentLen := (if limit < st.currentLen + line.length ∧ st.current ≠ []
        then flushChunk st else st).currentLen + line.length }

/-- One full iteration of `for line in content.splitlines(keepends=True)`. -/
def addLine (limit : Nat) (st : ChunkState) (line : Text) : ChunkState :=
  appendLine limit (whileSplit limit line.length st line)

/-- The chunk-splitting loop of core.py lines 254-278 over a line list. -/
def chunkLines (limit : Nat) (lines : List Text) : List Text :=
  let st := lines.foldl (addLine limit) ⟨[], [], 0⟩
  if st.current = [] then st.chunks else st.chunks ++ [st.current.flatten]

/-- The chunking step of publish_markdown: texts at most SAFE_CHUNK_SIZE
characters are one chunk, larger texts go through the line splitter. -/
def chunkText (content : Text) : List Text :=
  if SAFE_CHUNK_SIZE < content.length then
    chunkLines SAFE_CHUNK_SIZE (splitlines content)
  else [content]

/-- All text held by a chunking state, in order. -/
def stateText (st : ChunkState) : Text := st.chunks.flatten ++ st.current.flatten

/- ------------------------------------------------------------------
Retry-hint parsing and the publish session (core.py lines 22-45,
127-215, 217-337)
------------------------------------------------------------------ -/

/-- Leading run of decimal digits. -/
def takeDigits : List Char → List Char
  | [] => []
  | c :: cs => if c.isDigit then c :: takeDigits cs else []

/-- Numeric value of a digit run. -/
def digitsVal (ds : List Char) : Nat :=
  ds.foldl (fun n c => n * 10 + (c.toNat - 48)) 0

/-- First argument read as a pattern: is it an initial segment of the
second argument. -/
def listStarts : List Char → List Char → Bool
  | [], _ => true
  | _ :: _, [] => false
  | p :: ps, c :: cs => decide (p = c) && listStarts ps cs

/-- The Python substring test `sub in s`. -/
def hasSub (sub : List Char) : List Char → Bool
  | [] => listStarts sub []
  | c :: cs => listStarts sub (c :: cs) || hasSub sub cs

/-- re.search for the pattern "Retry in " followed by digits: the value
of the maximal digit run at the leftmost position where one exists. -/
def retrySearch : List Char → Option Nat
  | [] => none
  | c :: cs =>
    if listStarts "Retry in ".toList (c :: cs) ∧ takeDigits ((c :: cs).drop 9) ≠ [] then
      some (digitsVal (takeDigits ((c :: cs).drop 9)))
    else retrySearch cs

/-- The flood-control marker substring of core.py lines 201 and 320. -/
def floodStr : Text := "Flood control".toList

/-- The wait chosen by the page-creation retry handler, core.py lines
318-325: hint+1 seconds when the message contains "Flood control" and a
"Retry in N" hint, else the fixed 2-second fallback delay. -/
def createRetryWait (msg : Text) : Nat :=
  match retrySearch msg with
  | some n => if hasSub floodStr msg then n + 1 else 2
  | none => 2

/-- One outcome of a client.create_page call: the page response
(path and url fields) or an exception with its message. -/
inductive CreateOutcome where
  | ok (path url : Text)
  | err (msg : Text)

/-- A pages_info record, core.py lines 299-305. -/
structure Page where
  path : Text
  url : Text
  title : Text
  content : List Node
  partNum : Nat

/-- The per-page creation retry loop, core.py lines 295-325: up to
max_retries attempts (first argument after partNum), the creation oracle
indexed by a global call counter, and the trace of retry sleeps.
Returns (page or final error message, new call counter, sleep trace). -/
def createPage1 (orc : Nat → CreateOutcome) (pageTitle : Text) (nds : List Node)
    (partNum : Nat) : Nat → Nat → List Nat → Except Text Page × Nat × List Nat
  | 0, k, sleeps => (Except.error [], k, sleeps)
  | 1, k, sleeps =>
    match orc k with
    | .ok path url => (Except.ok ⟨path, url, pageTitle, nds, partNum⟩, k + 1, sleeps)
    | .err msg => (Except.error msg, k + 1, sleeps)
  | n + 2, k, sleeps =>
    match orc k with
    | .ok path url => (Except.ok ⟨path, url, pageTitle, nds, partNum⟩, k + 1, sleeps)
    | .err msg =>
      createPage1 orc pageTitle nds partNum (n + 1) (k + 1) (sleeps ++ [createRetryWait msg])

/-- Decimal rendering of a number, as Python str(). -/
def natChars (n : Nat) : Text := (Nat.repr n).toList

/-- Page titles encode pagination as "title (part/total)" when total>1. -/
def pageTitleFor (title : Text) (part total : Nat) : Text :=
  if 1 < total then
    title ++ " (".toList ++ natChars part ++ "/".toList ++ natChars total ++ ")".toList
  else title

/-- The page-creation pass over all chunks, core.py lines 285-325:
sequential, aborting the whole publish with the failing part number when
one page exhausts its attempts. Returns (pages or failing part, number
of create calls issued). -/
def createAllGo (orc : Nat → CreateOutcome) (convert : Text → List Node) (title : Text)
    (total : Nat) : List Text → Nat → Nat → List Page → Except Nat (List Page) × Nat
  | [], _, k, acc => (Except.ok acc, k)
  | c :: cs, i, k, acc =>
    match createPage1 orc (pageTitleFor title (i + 1) total) (convert c) (i + 1) 5 k [] with
    | (Except.ok pg, k2, _) => createAllGo orc convert title total cs (i + 1) k2 (acc ++ [pg])
    | (Except.error _, k2, _) => (Except.error (i + 1), k2)

/-- Creation pass entry point (max_retries = 5 per page). -/
def createAll (orc : Nat → CreateOutcome) (convert : Text → List Node) (title : Text)
    (chunks : List Text) : Except Nat (List Page) × Nat :=
  createAllGo orc convert title chunks.length chunks 0 0 []

/-- Out-of-range placeholder for list indexing (never reached for the
in-range accesses performed by _link_pages). -/
def dummyPage : Page := ⟨[], [], [], [], 0⟩

/-- Previous-page link label, core.py line 152. -/
def prevLabel : Text := "◀ Previous / 上一页".toList

/-- Next-page link label, core.py line 161. -/
def nextLabel : Text := "Next / 下一页 ▶".toList

/-- An anchor node {'tag':'a','attrs':{'href':url},'children':[label]}. -/
def aNode (url label : Text) : Node :=
  Node.elem "a".toList [("href".toList, url)] [Node.text label]

/-- The enumerated page index of _link_pages, core.py lines 170-177:
a bold [n] entry for the current page, an [n] link for every other page,
a space after each entry. -/
def indexEntries (cur : Nat) : List Page → Nat → List Node
  | [], _ => []
  | p :: ps, idx =>
    (if idx = cur
      then Node.elem "b".toList [] [Node.text ('[' :: natChars p.partNum ++ [']'])]
      else Node.elem "a".toList [("href".toList, p.url)]
        [Node.text ('[' :: natChars p.partNum ++ [']'])])
    :: Node.text " ".toList :: indexEntries cur ps (idx + 1)

/-- The navigation nodes _link_pages appends to page i, core.py lines
143-181: prev/next links and the page index (enumerated below 50 pages,
compact "i / total" from 50 up). -/
def navNodesFor (pages : List Page) (i : Nat) : List Node :=
  let total := pages.length
  let navLinks : List Node :=
    (if 0 < i then
      [aNode (pages.getD (i - 1) dummyPage).url prevLabel, Node.text " | ".toList]
     else []) ++
    (if i < total - 1 then [aNode (pages.getD (i + 1) dummyPage).url nextLabel] else [])
  (if navLinks.isEmpty then [] else [Node.elem "p".toList [] navLinks]) ++
  [Node.elem "p".toList []
    (if total < 50 then Node.text "Pages: ".toList :: indexEntries i pages 0
     else [Node.text "Pages: ".toList,
       Node.text (natChars (pages.getD i dummyPage).partNum ++ " / ".toList ++ natChars total)])]

/-- The content passed to edit_page for page i, core.py line 184:
the saved content, a rule, then the navigation nodes. -/
def linkedContent (pages : List Page) (i : Nat) : List Node :=
  (pages.getD i dummyPage).content ++ [Node.elem "hr".toList [] []] ++ navNodesFor pages i

/-- The per-page edit retry loop of _link_pages, core.py lines 187-208:
up to the given number of attempts, the edit oracle indexed by a global
call counter; returns (success, new call counter). -/
def linkRetry (edit : Nat → Bool) : Nat → Nat → Bool × Nat
  | 0, k => (false, k)
  | n + 1, k => if edit k then (true, k + 1) else linkRetry edit n (k + 1)

/-- The linking loop over all pages (first list argument enumerates the
remaining iterations); accumulates the contents sent to edit_page. -/
def linkLoop (edit : Nat → Bool) (pages : List Page) :
    List Page → Nat → Nat → List (List Node) → Nat × List (List Node)
  | [], _, k, acc => (k, acc)
  | _ :: rest, i, k, acc =>
    if (navNodesFor pages i).isEmpty then linkLoop edit pages rest (i + 1) k acc
    else
      linkLoop edit pages rest (i + 1) (linkRetry edit 3 k).2
        (acc ++ [linkedContent pages i])

/-- _link_pages, core.py lines 127-215: a no-op for at most one page,
otherwise the linking loop (max_retries = 3 per page). Returns the
number of edit calls issued and the content of each issued edit. -/
def linkPages (edit : Nat → Bool) (pages : List Page) : Nat × List (List Node) :=
  if pages.length ≤ 1 then (0, [])
  else linkLoop edit pages pages 0 0 []

mutual

/-- Does a node tree contain an anchor whose href attribute is u. -/
def nodeHasHref : Node → Text → Bool
  | .text _, _ => false
  | .elem tag attrs children, u =>
    (decide (tag = "a".toList) &&
      attrs.any (fun pr => decide (pr.1 = "href".toList) && decide (pr.2 = u))) ||
    nodesHaveHref children u

/-- List version of nodeHasHref. -/
def nodesHaveHref : List Node → Text → Bool
  | [], _ => false
  | n :: ns, u => nodeHasHref n u || nodesHaveHref ns u

end

/-- The state of the cache file backing _load_cache / _save_cache. -/
inductive CacheFile where
  | missing
  | corrupt
  | valid (table : List (Text × Text))

/-- core._load_cache, core.py lines 25-33: a missing file or a failed
json.load both degrade to the empty table. -/
def _load_cache : CacheFile → List (Text × Text)
  | .missing => []
  | .corrupt => []
  | .valid table => table

/-- Dict lookup in the fingerprint cache. -/
def lookup : List (Text × Text) → Text → Option Text
  | [], _ => none
  | (k, v) :: rest, key => if k = key then some v else lookup rest key

/-- Dict assignment self._cache[key] = url. -/
def insertKV (k v : Text) : List (Text × Text) → List (Text × Text)
  | [] => [(k, v)]
  | (k1, v1) :: rest => if k1 = k then (k, v) :: rest else (k1, v1) :: insertKV k v rest

/-- Characters Python str.strip() removes, the Unicode whitespace set. -/
def pyIsSpace (c : Char) : Bool :=
  c = ' ' || c = '\t' || c = '\n' || c = '\r' ||
  c = Char.ofNat 0x0b || c = Char.ofNat 0x0c ||
  c = Char.ofNat 0x1c || c = Char.ofNat 0x1d || c = Char.ofNat 0x1e ||
  c = Char.ofNat 0x1f || c = Char.ofNat 0x85 || c = Char.ofNat 0xa0 ||
  c = Char.ofNat 0x1680 || (0x2000 ≤ c.toNat && c.toNat ≤ 0x200a) ||
  c = Char.ofNat 0x2028 || c = Char.ofNat 0x2029 || c = Char.ofNat 0x202f ||
  c = Char.ofNat 0x205f || c = Char.ofNat 0x3000

/-- Errors publish_markdown can raise: ValidationError for undecodable
or blank input, RuntimeError (with the failing part number) when a page
exhausts its creation attempts. -/
inductive PubErr where
  | validation
  | runtimeFailure (part : Nat)
deriving DecidableEq

/-- One publish_markdown run: the returned URL or error, the number of
create_page and edit_page calls issued, the session cache afterwards,
and whether the cache file was (successfully) rewritten. -/
structure PubResult where
  out : Except PubErr Text
  createCalls : Nat
  editCalls : Nat
  cache : List (Text × Text)
  fileSaved : Bool

/-- pages_info[0]['url'] if pages_info else "". -/
def firstUrl : List Page → Text
  | [] => []
  | p :: _ => p.url

/-- The non-cached tail of publish_markdown, core.py lines 249-337:
chunk, create every page, link, then store the fingerprint when dedup is
active and the URL is nonempty (the empty string is falsy in Python).
saveOk tells whether the best-effort cache write would succeed. -/
def publishFresh (convert : Text → List Node) (orc : Nat → CreateOutcome)
    (edit : Nat → Bool) (key : Option Text) (cache : List (Text × Text))
    (saveOk : Bool) (content title : Text) : PubResult :=
  match createAll orc convert title (chunkText content) with
  | (Except.error part, k) => ⟨Except.error (PubErr.runtimeFailure part), k, 0, cache, false⟩
  | (Except.ok pages, k) =>
    match key with
    | some kk =>
      if firstUrl pages ≠ [] then
        ⟨Except.ok (firstUrl pages), k, (linkPages edit pages).1,
          insertKV kk (firstUrl pages) cache, saveOk⟩
      else ⟨Except.ok (firstUrl pages), k, (linkPages edit pages).1, cache, false⟩
    | none => ⟨Except.ok (firstUrl pages), k, (linkPages edit pages).1, cache, false⟩

/-- TelegraphPublisher.publish_markdown, core.py lines 217-337, for a
session with the given hash function (_content_hash), converter, client
oracles and in-memory cache. input is the decoded file content, none
when the file cannot be decoded as UTF-8. -/
def publish_markdown (hash : Text → Text) (convert : Text → List Node)
    (orc : Nat → CreateOutcome) (edit : Nat → Bool) (skipDuplicate : Bool)
    (cache : List (Text × Text)) (saveOk : Bool) (input : Option Text)
    (title : Text) : PubResult :=
  match input with
  | none => ⟨Except.error PubErr.validation, 0, 0, cache, false⟩
  | some content =>
    if content.all pyIsSpace then ⟨Except.error PubErr.validation, 0, 0, cache, false⟩
    else if skipDuplicate then
      match lookup cache (hash (content ++ title)) with
      | some url => ⟨Except.ok url, 0, 0, cache, false⟩
      | none =>
        publishFresh convert orc edit (some (hash (content ++ title))) cache saveOk
          content title
    else publishFresh convert orc edit none cache saveOk content title

/- ------------------------------------------------------------------
Upload orchestrator (uploader.py)
------------------------------------------------------------------ -/

/-- uploader.UploadResult: one record per upload_safe call. -/
structure UploadResult where
  path : Text
  url : Option Text := none
  error : Option Text := none
  success : Bool := false
  compressed : Bool := false
  attempts : Nat := 0

/-- uploader.BatchUploadResult. -/
structure BatchUploadResult where
  total : Nat
  successful : Nat
  failed : Nat
  results : List UploadResult

/-- Recording one completed result, uploader.py lines 244-250: append
it and bump the matching counter. -/
def recordStep (acc : BatchUploadResult) (r : UploadResult) : BatchUploadResult :=
  { acc with
    results := acc.results ++ [r],
    successful := if r.success then acc.successful + 1 else acc.successful,
    failed := if r.success then acc.failed else acc.failed + 1 }

/-- The as_completed loop of upload_batch, uploader.py lines 239-260:
the list argument is the per-item UploadResult records in completion
order (upload_safe never raises, so every future resolves to one);
once should_stop is set, later results are cancelled or skipped and
never recorded. -/
def batchLoop (stopOnError : Bool) :
    List UploadResult → Bool → BatchUploadResult → BatchUploadResult
  | [], _, acc => acc
  | r :: rs, shouldStop, acc =>
    if shouldStop then batchLoop stopOnError rs shouldStop acc
    else batchLoop stopOnError rs (!r.success && stopOnError) (recordStep acc r)

/-- uploader.ImageUploader.upload_batch, lines 191-262, as a function of
the completion-ordered per-item results: total is set to len(paths) up
front, then the loop aggregates. -/
def upload_batch (completions : List UploadResult) (stopOnError : Bool) :
    BatchUploadResult :=
  batchLoop stopOnError completions false
    { total := completions.length, successful := 0, failed := 0, results := [] }

/-- uploader._UPLOAD_DISABLED, uploader.py line 18: the module-level
kill switch, shipped as True. -/
def _UPLOAD_DISABLED : Bool := true

/-- One outcome of a telegraph.upload_file call: a response list whose
first entry has a src key, a response of any other shape (which raises
and is then caught and retried like any exception), or an exception. -/
inductive UploadOutcome where
  | valid (src : Text)
  | invalid
  | exn (msg : Text)

/-- How a single upload call ends. errExhausted models the UploadError
of uploader.py lines 166-168, which names the original path and the
attempt count; errDisabled the UploadError of line 111. -/
inductive UpRes where
  | ok (url : Text)
  | errDisabled
  | errExhausted (path : Text) (attempts : Nat)
  | fileNotFound
  | compressFailed
deriving DecidableEq

/-- Whether an outcome is an UploadError. -/
def isUploadError : UpRes → Bool
  | .errDisabled => true
  | .errExhausted _ _ => true
  | _ => false

/-- The URL prefix of uploader.py line 154. -/
def telegraphBase : Text := "https://telegra.ph".toList

/-- The retry loop of _upload_with_retry, uploader.py lines 148-168:
for attempt in range(retries), one upload_file call per attempt, any
failure (exception or bad response) retried after a backoff sleep, and
UploadError naming the original path and the retry count once the loop
ends. Second numeric argument counts attempts already made. -/
def retryGo (outcome : Nat → UploadOutcome) (originalPath : Text) (total : Nat) :
    Nat → Nat → UpRes × Nat
  | 0, made => (.errExhausted originalPath total, made)
  | n + 1, made =>
    match outcome made with
    | .valid src => (.ok (telegraphBase ++ src), made + 1)
    | _ => retryGo outcome originalPath total n (made + 1)

/-- uploader.ImageUploader.upload, lines 82-134: the _UPLOAD_DISABLED
guard first, then the existence check, then compression (its failure
modes folded into compressRes), then _upload_with_retry. The second
component counts upload_file calls actually made. -/
def upload (disabled : Bool) (pathOnDisk : Bool) (compressRes : Except Text Text)
    (outcome : Nat → UploadOutcome) (path : Text) (retries : Nat) : UpRes × Nat :=
  if disabled then (.errDisabled, 0)
  else if ¬ pathOnDisk then (.fileNotFound, 0)
  else
    match compressRes with
    | .error _ => (.compressFailed, 0)
    | .ok _ => retryGo outcome path retries retries 0

/- ------------------------------------------------------------------
Compression engine (utils.py lines 76-252)
------------------------------------------------------------------ -/

/-- The phase-1 quality ladder range(95, min_quality-1, -5) at the
default min_quality = 30, utils.py line 202. -/
def qualityLadder : List Nat := [95, 90, 85, 80, 75, 70, 65, 60, 55, 50, 45, 40, 35, 30]

/-- The phase-2 scale ladder of utils.py lines 220-235 in tenths:
scale = 0.9 down to the default min_scale = 0.3 in steps of 0.1
(the nominal values of the Python float loop). -/
def scaleTenthsLadder : List Nat := [9, 8, 7, 6, 5, 4, 3]

/-- The phase-2 quality ladder range(85, min_quality-1, -10) at the
default min_quality = 30, utils.py line 226. -/
def scaleQualityLadder : List Nat := [85, 75, 65, 55, 45, 35]

/-- How compress_image_to_size ends: the input path unchanged, a new
temp file of the given byte size with wasCompressed=true, a
ConversionError, or a ValidationError (Pillow missing). -/
inductive CompressRes where
  | unchanged (path : Text)
  | compressed (size : Nat)
  | convError
  | valError
deriving DecidableEq

/-- utils._try_quality_compression, lines 195-208: walk the quality
ladder and return the first encoding at most maxSize bytes; the encoder
(img.save) is the oracle giving the encoded size per quality. -/
def _try_quality_compression (size : Nat → Nat) (maxSize : Nat) : List Nat → Option Nat
  | [] => none
  | q :: qs =>
    if size q ≤ maxSize then some (size q)
    else _try_quality_compression size maxSize qs

/-- utils._try_scale_compression, lines 211-236: walk the scale ladder,
trying the inner quality ladder at each scale; the oracle gives the
encoded size per (scale tenths, quality). -/
def _try_scale_compression (size : Nat → Nat → Nat) (maxSize : Nat) : List Nat → Option Nat
  | [] => none
  | sc :: ss =>
    match _try_quality_compression (size sc) maxSize scaleQualityLadder with
    | some r => some r
    | none => _try_scale_compression size maxSize ss

/-- utils.compress_image_to_size, lines 114-166, at the default
min_quality/min_scale: files at most maxSize are returned unchanged,
skip-compression formats (GIF) over the limit raise ConversionError,
otherwise phase 1 (quality, at full scale 10/10) then phase 2 (scale),
and ConversionError when nothing fits. -/
def compress_image_to_size (pilAvailable : Bool) (size : Nat → Nat → Nat)
    (path : Text) (fileSize : Nat) (skipFormat : Bool) (maxSize : Nat) : CompressRes :=
  if ¬ pilAvailable then .valError
  else if fileSize ≤ maxSize then .unchanged path
  else if skipFormat then .convError
  else
    match _try_quality_compression (size 10) maxSize qualityLadder with
    | some r => .compressed r
    | none =>
      match _try_scale_compression size maxSize scaleTenthsLadder with
      | some r => .compressed r
      | none => .convError

/- ------------------------------------------------------------------
Theorems
------------------------------------------------------------------ -/
/-- Case analysis on the header-downgrade map. -/
theorem fixTag_cases (t : Text) :
    (t = ['h', '1'] ∧ fixTag t = ['h', '3']) ∨
    (t = ['h', '2'] ∧ fixTag t = ['h', '4']) ∨
    ((t = ['h', '5'] ∨ t = ['h', '6']) ∧ fixTag t = ['h', '4']) ∨
    (t ≠ ['h', '1'] ∧ t ≠ ['h', '2'] ∧ t ≠ ['h', '5'] ∧ t ≠ ['h', '6'] ∧
      fixTag t = t) := by
  unfold fixTag
  split_ifs with h1 h2 h5
  · exact Or.inl ⟨by simpa using h1, by decide⟩
  · exact Or.inr (Or.inl ⟨by simpa using h2, by decide⟩)
  · exact Or.inr (Or.inr (Or.inl ⟨by simpa using h5, by decide⟩))
  · refine Or.inr (Or.inr (Or.inr ⟨?_, ?_, ?_, ?_, rfl⟩)) <;>
      intro h <;> simp [h] at h1 h2 h5

/-- fixTag is idempotent. -/
theorem fixTag_idem (t : Text) : fixTag (fixTag t) = fixTag t := by
  rcases fixTag_cases t with ⟨_, e⟩ | ⟨_, e⟩ | ⟨_, e⟩ | ⟨_, _, _, _, e⟩ <;>
    rw [e] <;> first | decide | exact e

mutual

theorem sanitizeNode_idem : (n : Node) → sanitizeNode (sanitizeNode n) = sanitizeNode n
  | .text _ => rfl
  | .elem t a c => by
    simp [sanitizeNode, fixTag_idem t, sanitize_nodes_idem c]

theorem sanitize_nodes_idem :
    (ns : List Node) → sanitize_nodes (sanitize_nodes ns) = sanitize_nodes ns
  | [] => rfl
  | n :: ns => by
    simp [sanitize_nodes, sanitizeNode_idem n, sanitize_nodes_idem ns]

end

mutual

theorem sanitizeNode_ok : (n : Node) → nodeHeadersOk (sanitizeNode n) = true
  | .text _ => rfl
  | .elem t a c => by
    rcases fixTag_cases t with ⟨_, e⟩ | ⟨_, e⟩ | ⟨_, e⟩ | ⟨h1, h2, h5, h6, e⟩ <;>
      simp_all [sanitizeNode, nodeHeadersOk, sanitize_nodes_ok c]

theorem sanitize_nodes_ok : (ns : List Node) → nodesHeadersOk (sanitize_nodes ns) = true
  | [] => rfl
  | n :: ns => by
    simp [sanitize_nodes, nodesHeadersOk, sanitizeNode_ok n, sanitize_nodes_ok ns]

end

mutual

theorem sanitizeNode_rel : (n : Node) → nodeClaimRel n (sanitizeNode n) = true
  | .text s => by simp [sanitizeNode, nodeClaimRel]
  | .elem t a c => by
    rcases fixTag_cases t with ⟨h, e⟩ | ⟨h, e⟩ | ⟨h, e⟩ | ⟨h1, h2, h5, h6, e⟩
    · simp [sanitizeNode, nodeClaimRel, h, e, sanitize_nodes_rel c]
      decide
    · simp [sanitizeNode, nodeClaimRel, h, e, sanitize_nodes_rel c]
      decide
    · rcases h with h | h <;>
        simp [sanitizeNode, nodeClaimRel, h, e, sanitize_nodes_rel c] <;> decide
    · simp [sanitizeNode, nodeClaimRel, h1, h2, h5, h6, e, sanitize_nodes_rel c]

theorem sanitize_nodes_rel : (ns : List Node) → nodesClaimRel ns (sanitize_nodes ns) = true
  | [] => rfl
  | n :: ns => by
    simp [sanitize_nodes, nodesClaimRel, sanitizeNode_rel n, sanitize_nodes_rel ns]

end

/-- C10: sanitize_nodes is idempotent, after one application no node at
any depth carries tag h1, h2, h5 or h6, and the output matches the input
up to the claimed header downgrades (h1 to h3, h2 to h4, h5 and h6 to h4)
with all other tags, attributes and text content unchanged. -/
theorem sanitize_nodes_claim (ns : List Node) :
    sanitize_nodes (sanitize_nodes ns) = sanitize_nodes ns ∧
    nodesHeadersOk (sanitize_nodes ns) = true ∧
    nodesClaimRel ns (sanitize_nodes ns) = true :=
  ⟨sanitize_nodes_idem ns, sanitize_nodes_ok ns, sanitize_nodes_rel ns⟩

theorem takeLine_append : ∀ cs : List Char, (takeLine cs).1 ++ (takeLine cs).2 = cs
  | [] => rfl
  | c :: rest => by
    by_cases hc : c = '\r'
    · subst hc
      match rest with
      | [] => simp [takeLine]
      | '\n' :: rest2 => simp [takeLine]
      | c2 :: rest2 =>
        by_cases h2 : c2 = '\n'
        · subst h2; simp [takeLine]
        · simp [takeLine, h2]
    · by_cases hn : isNewlineChar c
      · simp [takeLine, hc, hn]
      · simp [takeLine, hc, hn, takeLine_append rest]

theorem takeLine_le : ∀ cs : List Char, (takeLine cs).2.length ≤ cs.length
  | [] => Nat.le_refl _
  | c :: rest => by
    by_cases hc : c = '\r'
    · subst hc
      match rest with
      | [] => simp [takeLine]
      | '\n' :: rest2 => simp [takeLine]; omega
      | c2 :: rest2 =>
        by_cases h2 : c2 = '\n'
        · subst h2; simp [takeLine]; omega
        · simp [takeLine, h2]
    · by_cases hn : isNewlineChar c
      · simp [takeLine, hc, hn]
      · have := takeLine_le rest
        simp [takeLine, hc, hn]
        omega

theorem takeLine_shrink (c : Char) (rest : List Char) :
    (takeLine (c :: rest)).2.length < (c :: rest).length := by
  by_cases hc : c = '\r'
  · subst hc
    match rest with
    | [] => simp [takeLine]
    | '\n' :: rest2 => simp [takeLine]; omega
    | c2 :: rest2 =>
      by_cases h2 : c2 = '\n'
      · subst h2; simp [takeLine]; omega
      · simp [takeLine, h2]
  · by_cases hn : isNewlineChar c
    · simp [takeLine, hc, hn]
    · have := takeLine_le rest
      simp [takeLine, hc, hn]
      omega

theorem splitlinesGo_flatten :
    ∀ (fuel : Nat) (cs : List Char), cs.length ≤ fuel →
      (splitlinesGo fuel cs).flatten = cs
  | 0, cs, h => by
    have : cs = [] := List.length_eq_zero.mp (Nat.le_zero.mp h)
    simp [this, splitlinesGo]
  | fuel + 1, [], _ => by simp [splitlinesGo]
  | fuel + 1, c :: rest, h => by
    have hlt := takeLine_shrink c rest
    have hle : (takeLine (c :: rest)).2.length ≤ fuel := by
      simp only [List.length_cons] at hlt h; omega
    simp only [splitlinesGo, List.flatten_cons]
    rw [splitlinesGo_flatten fuel _ hle, takeLine_append]

/-- Joining the keepends line split reproduces the text. -/
theorem splitlines_flatten (text : Text) : (splitlines text).flatten = text :=
  splitlinesGo_flatten text.length text (Nat.le_refl _)

theorem stateText_push_condFlush (st : ChunkState) (c : Text) :
    stateText (pushChunk (condFlush st) c) = stateText st ++ c := by
  unfold condFlush
  by_cases h : st.current = [] <;> simp [stateText, pushChunk, h, flushChunk]

theorem whileSplit_text (limit : Nat) :
    ∀ (fuel : Nat) (st : ChunkState) (line : Text),
      stateText (whileSplit limit fuel st line).1 ++ (whileSplit limit fuel st line).2
        = stateText st ++ line
  | 0, _, _ => rfl
  | fuel + 1, st, line => by
    by_cases h : limit < line.length
    · simp only [whileSplit, if_pos h]
      rw [whileSplit_text limit fuel, stateText_push_condFlush]
      simp
    · simp only [whileSplit, if_neg h]

theorem appendLine_text (limit : Nat) (st : ChunkState) (line : Text) :
    stateText (appendLine limit (st, line)) = stateText st ++ line := by
  unfold appendLine
  by_cases h : limit < st.currentLen + line.length ∧ st.current ≠ [] <;>
    simp [h, stateText, flushChunk]

theorem addLine_text (limit : Nat) (st : ChunkState) (line : Text) :
    stateText (addLine limit st line) = stateText st ++ line := by
  unfold addLine
  rcases hw : whileSplit limit line.length st line with ⟨st1, line1⟩
  have hws := whileSplit_text limit line.length st line
  rw [hw] at hws
  rw [appendLine_text]
  simpa using hws

theorem foldl_addLine_text (limit : Nat) :
    ∀ (lines : List Text) (st : ChunkState),
      stateText (lines.foldl (addLine limit) st) = stateText st ++ lines.flatten
  | [], st => by simp
  | l :: ls, st => by
    simp [List.foldl, foldl_addLine_text limit ls, addLine_text]

theorem chunkLines_flatten (limit : Nat) (lines : List Text) :
    (chunkLines limit lines).flatten = lines.flatten := by
  unfold chunkLines
  have h := foldl_addLine_text limit lines ⟨[], [], 0⟩
  rcases hs : lines.foldl (addLine limit) ⟨[], [], 0⟩ with ⟨cks, cur, n⟩
  rw [hs] at h
  simp only [stateText] at h
  by_cases hc : cur = [] <;> simp_all

/-- C5: for every text in which no single line exceeds SAFE_CHUNK_SIZE,
concatenating the chunks produced by publish_markdown's chunking step,
in order, reproduces the original text exactly (no characters lost,
duplicated or reordered). -/
theorem chunkText_reconstruction (content : Text)
    (hlines : ∀ l ∈ splitlines content, l.length ≤ SAFE_CHUNK_SIZE) :
    (chunkText content).flatten = content := by
  unfold chunkText
  by_cases h : SAFE_CHUNK_SIZE < content.length
  · simp only [if_pos h]
    rw [chunkLines_flatten, splitlines_flatten]
  · simp [if_neg h]

/-- Witness for C5 at the concrete text "ab" newline "cd". -/
theorem chunkText_reconstruction_witness :
    (∀ l ∈ splitlines "ab\ncd".toList, l.length ≤ SAFE_CHUNK_SIZE) ∧
    (chunkText "ab\ncd".toList).flatten = "ab\ncd".toList :=
  ⟨by decide, chunkText_reconstruction "ab\ncd".toList (by decide)⟩

/-- C9: for every input file that cannot be decoded as UTF-8, or whose
decoded content is empty or all-whitespace, publish_markdown raises
ValidationError before issuing any create call and leaves the
fingerprint cache unchanged. -/
theorem publish_validation_claim (hash : Text → Text) (convert : Text → List Node)
    (orc : Nat → CreateOutcome) (edit : Nat → Bool) (skipDup : Bool)
    (cache : List (Text × Text)) (saveOk : Bool) (input : Option Text) (title : Text)
    (h : input = none ∨ ∃ content, input = some content ∧ content.all pyIsSpace = true) :
    (publish_markdown hash convert orc edit skipDup cache saveOk input title).out
        = Except.error PubErr.validation ∧
    (publish_markdown hash convert orc edit skipDup cache saveOk input title).createCalls = 0 ∧
    (publish_markdown hash convert orc edit skipDup cache saveOk input title).cache = cache := by
  rcases h with h | ⟨content, h, hsp⟩
  · subst h; simp [publish_markdown]
  · subst h; simp [publish_markdown, hsp]

/-- Witness for C9: an undecodable file and a whitespace-only file. -/
theorem publish_validation_claim_witness :
    ((publish_markdown (fun t => t) (fun _ => []) (fun _ => CreateOutcome.ok [] [])
        (fun _ => true) true [] true none "t".toList).out
      = Except.error PubErr.validation ∧
     (publish_markdown (fun t => t) (fun _ => []) (fun _ => CreateOutcome.ok [] [])
        (fun _ => true) true [] true none "t".toList).createCalls = 0 ∧
     (publish_markdown (fun t => t) (fun _ => []) (fun _ => CreateOutcome.ok [] [])
        (fun _ => true) true [] true none "t".toList).cache = []) ∧
    ((publish_markdown (fun t => t) (fun _ => []) (fun _ => CreateOutcome.ok [] [])
        (fun _ => true) true [] true (some "  \n ".toList) "t".toList).out
      = Except.error PubErr.validation ∧
     (publish_markdown (fun t => t) (fun _ => []) (fun _ => CreateOutcome.ok [] [])
        (fun _ => true) true [] true (some "  \n ".toList) "t".toList).createCalls = 0 ∧
     (publish_markdown (fun t => t) (fun _ => []) (fun _ => CreateOutcome.ok [] [])
        (fun _ => true) true [] true (some "  \n ".toList) "t".toList).cache = []) :=
  ⟨publish_validation_claim _ _ _ _ _ _ _ _ _ (Or.inl rfl),
   publish_validation_claim _ _ _ _ _ _ _ _ _ (Or.inr ⟨_, rfl, by decide⟩)⟩

theorem publishFresh_out_saveOk (convert : Text → List Node) (orc : Nat → CreateOutcome)
    (edit : Nat → Bool) (key : Option Text) (cache : List (Text × Text))
    (content title : Text) (s1 s2 : Bool) :
    (publishFresh convert orc edit key cache s1 content title).out
      = (publishFresh convert orc edit key cache s2 content title).out := by
  unfold publishFresh
  rcases hE : createAll orc convert title (chunkText content) with ⟨res, k⟩
  rcases res with part | pages
  · rfl
  · rcases key with _ | kk
    · rfl
    · by_cases h : firstUrl pages = [] <;> simp [h]

theorem publish_out_saveOk (hash : Text → Text) (convert : Text → List Node)
    (orc : Nat → CreateOutcome) (edit : Nat → Bool) (skipDup : Bool)
    (cache : List (Text × Text)) (input : Option Text) (title : Text) (s1 s2 : Bool) :
    (publish_markdown hash convert orc edit skipDup cache s1 input title).out
      = (publish_markdown hash convert orc edit skipDup cache s2 input title).out := by
  rcases input with _ | content
  · rfl
  · by_cases hsp : content.all pyIsSpace
    · simp [publish_markdown, hsp]
    · cases skipDup
      · simpa [publish_markdown, hsp] using
          publishFresh_out_saveOk convert orc edit none cache content title s1 s2
      · rcases hc : lookup cache (hash (content ++ title)) with _ | u
        · simpa [publish_markdown, hsp, hc] using
            publishFresh_out_saveOk convert orc edit (some (hash (content ++ title)))
              cache content title s1 s2
        · simp [publish_markdown, hsp, hc]

/-- C8: the fingerprint cache never blocks or fails a publish: a missing
or corrupt cache file loads as the empty table, every lookup in that
table misses, a session started from a corrupt cache file behaves
exactly as one with an empty cache, and a failure of the best-effort
cache write after a publish leaves the returned value unchanged. -/
theorem fingerprint_cache_resilient (hash : Text → Text) (convert : Text → List Node)
    (orc : Nat → CreateOutcome) (edit : Nat → Bool) (skipDup : Bool)
    (cache : List (Text × Text)) (input : Option Text) (title : Text) :
    _load_cache CacheFile.missing = [] ∧
    _load_cache CacheFile.corrupt = [] ∧
    (∀ key, lookup (_load_cache CacheFile.missing) key = none) ∧
    (∀ key, lookup (_load_cache CacheFile.corrupt) key = none) ∧
    publish_markdown hash convert orc edit skipDup (_load_cache CacheFile.corrupt) true
        input title
      = publish_markdown hash convert orc edit skipDup [] true input title ∧
    (publish_markdown hash convert orc edit skipDup cache true input title).out
      = (publish_markdown hash convert orc edit skipDup cache false input title).out :=
  ⟨rfl, rfl, fun _ => rfl, fun _ => rfl, rfl,
   publish_out_saveOk hash convert orc edit skipDup cache input title true false⟩

theorem lookup_insertKV (k v : Text) :
    ∀ c : List (Text × Text), lookup (insertKV k v c) k = some v
  | [] => by simp [insertKV, lookup]
  | (k1, v1) :: rest => by
    by_cases h : k1 = k <;> simp [insertKV, lookup, h, lookup_insertKV k v rest]

theorem publish_success_cached (hash : Text → Text) (convert : Text → List Node)
    (orc : Nat → CreateOutcome) (edit : Nat → Bool) (cache : List (Text × Text))
    (saveOk : Bool) (input : Option Text) (title u : Text)
    (h1 : (publish_markdown hash convert orc edit true cache saveOk input title).out
      = Except.ok u)
    (hne : u ≠ []) :
    ∃ content, input = some content ∧ content.all pyIsSpace = false ∧
      lookup (publish_markdown hash convert orc edit true cache saveOk input title).cache
        (hash (content ++ title)) = some u := by
  rcases input with _ | content
  · simp [publish_markdown] at h1
  · by_cases hsp : content.all pyIsSpace
    · simp [publish_markdown, hsp] at h1
    · refine ⟨content, rfl, by simpa using hsp, ?_⟩
      rcases hc : lookup cache (hash (content ++ title)) with _ | u0
      · simp only [publish_markdown, hsp, hc] at h1 ⊢
        rw [if_neg (by simp)] at h1 ⊢
        simp only [if_true] at h1 ⊢
        unfold publishFresh at h1 ⊢
        rcases hE : createAll orc convert title (chunkText content) with ⟨res, k⟩
        rw [hE] at h1
        rcases res with part | pages
        · simp at h1
        · by_cases hfu : firstUrl pages = []
          · simp [hfu] at h1
            exact absurd h1 hne
          · simp only [hfu, ne_eq, not_false_iff, if_true, Except.ok.injEq] at h1
            simp only [ne_eq, hfu, not_false_iff, if_true]
            rw [h1]
            exact lookup_insertKV _ _ _
      · simp only [publish_markdown, hsp, hc] at h1 ⊢
        rw [if_neg (by simp)] at h1 ⊢
        simp only [if_true] at h1 ⊢
        simp only [Except.ok.injEq] at h1
        rw [hc, h1]

theorem publish_cache_hit (hash : Text → Text) (convert : Text → List Node)
    (orc : Nat → CreateOutcome) (edit : Nat → Bool) (cache : List (Text × Text))
    (saveOk : Bool) (content title u : Text)
    (hsp : content.all pyIsSpace = false)
    (hc : lookup cache (hash (content ++ title)) = some u) :
    publish_markdown hash convert orc edit true cache saveOk (some content) title
      = ⟨Except.ok u, 0, 0, cache, false⟩ := by
  simp [publish_markdown, hsp, hc]

/-- C1: publishing the same (content, title) twice with dedup enabled
returns the same URL both times, and the second publish issues no remote
create call: the fingerprint of content+title is looked up in the
session cache and the cached URL is returned directly. Stated for any
successful first publish with a nonempty URL (the hash function, the
converter and the client responses of each run are arbitrary). -/
theorem publish_dedup_idempotent (hash : Text → Text) (convert : Text → List Node)
    (orc1 orc2 : Nat → CreateOutcome) (edit1 edit2 : Nat → Bool)
    (cache : List (Text × Text)) (s1 s2 : Bool) (input : Option Text) (title u1 : Text)
    (h1 : (publish_markdown hash convert orc1 edit1 true cache s1 input title).out
      = Except.ok u1)
    (hne : u1 ≠ []) :
    (publish_markdown hash convert orc2 edit2 true
        (publish_markdown hash convert orc1 edit1 true cache s1 input title).cache
        s2 input title).out = Except.ok u1 ∧
    (publish_markdown hash convert orc2 edit2 true
        (publish_markdown hash convert orc1 edit1 true cache s1 input title).cache
        s2 input title).createCalls = 0 := by
  obtain ⟨content, hin, hsp, hlook⟩ :=
    publish_success_cached hash convert orc1 edit1 cache s1 input title u1 h1 hne
  subst hin
  rw [publish_cache_hit hash convert orc2 edit2 _ s2 content title u1 hsp hlook]
  exact ⟨rfl, rfl⟩

/-- Witness for C1: a first publish of content "a" under title "t"
creates a page at URL "u"; the repeat publish returns "u" again with
zero create calls even though its client would answer URL "v". -/
theorem publish_dedup_idempotent_witness :
    ((publish_markdown (fun t => t) (fun _ => [])
        (fun _ => CreateOutcome.ok "p".toList "u".toList) (fun _ => true)
        true [] true (some "a".toList) "t".toList).out = Except.ok "u".toList) ∧
    "u".toList ≠ [] ∧
    ((publish_markdown (fun t => t) (fun _ => [])
        (fun _ => CreateOutcome.ok "q".toList "v".toList) (fun _ => true) true
        (publish_markdown (fun t => t) (fun _ => [])
          (fun _ => CreateOutcome.ok "p".toList "u".toList) (fun _ => true)
          true [] true (some "a".toList) "t".toList).cache
        true (some "a".toList) "t".toList).out = Except.ok "u".toList ∧
     (publish_markdown (fun t => t) (fun _ => [])
        (fun _ => CreateOutcome.ok "q".toList "v".toList) (fun _ => true) true
        (publish_markdown (fun t => t) (fun _ => [])
          (fun _ => CreateOutcome.ok "p".toList "u".toList) (fun _ => true)
          true [] true (some "a".toList) "t".toList).cache
        true (some "a".toList) "t".toList).createCalls = 0) :=
  ⟨rfl, by decide,
   publish_dedup_idempotent (fun t => t) (fun _ => [])
     (fun _ => CreateOutcome.ok "p".toList "u".toList)
     (fun _ => CreateOutcome.ok "q".toList "v".toList)
     (fun _ => true) (fun _ => true) [] true true (some "a".toList) "t".toList
     "u".toList rfl (by decide)⟩

/-- C4 counterexample: a creation error whose message contains
"Retry in 7" but not "Flood control" gets the fixed 2-second fallback
sleep, not the hinted 8 seconds, because core.py line 320 also requires
the substring "Flood control" before using the hint. -/
theorem create_retry_hint_counterexample :
    hasSub "Retry in 7".toList "Error: Retry in 7 seconds".toList = true ∧
    (createPage1
      (fun k => if k = 0 then CreateOutcome.err "Error: Retry in 7 seconds".toList
        else CreateOutcome.ok "p".toList "u".toList)
      "T".toList [] 1 5 0 []).2.2 = [2] ∧
    (createPage1
      (fun k => if k = 0 then CreateOutcome.err "Error: Retry in 7 seconds".toList
        else CreateOutcome.ok "p".toList "u".toList)
      "T".toList [] 1 5 0 []).2.2 ≠ [8] := by
  refine ⟨by decide, by decide, by decide⟩

/-- C4 amended: whenever a non-final page-creation attempt fails with a
message containing "Flood control" and a "Retry in N" hint, the session
records a sleep of exactly N+1 seconds and retries the creation of the
same page (same title, content and part number) with one attempt fewer. -/
theorem create_flood_hint_wait (orc : Nat → CreateOutcome) (t : Text) (nds : List Node)
    (p n k hint : Nat) (sleeps : List Nat) (msg : Text)
    (hk : orc k = CreateOutcome.err msg)
    (hf : hasSub floodStr msg = true)
    (hr : retrySearch msg = some hint) :
    createPage1 orc t nds p (n + 2) k sleeps
      = createPage1 orc t nds p (n + 1) (k + 1) (sleeps ++ [hint + 1]) := by
  simp [createPage1, hk, createRetryWait, hr, hf]

/-- Witness for the amended C4 at the message
"Flood control exceeded. Retry in 7 seconds": the recorded sleep is 8. -/
theorem create_flood_hint_wait_witness :
    createPage1
        (fun k => if k = 0
          then CreateOutcome.err "Flood control exceeded. Retry in 7 seconds".toList
          else CreateOutcome.ok "p".toList "u".toList)
        "T".toList [] 1 5 0 []
      = createPage1
        (fun k => if k = 0
          then CreateOutcome.err "Flood control exceeded. Retry in 7 seconds".toList
          else CreateOutcome.ok "p".toList "u".toList)
        "T".toList [] 1 4 1 [8] :=
  create_flood_hint_wait
    (fun k => if k = 0
      then CreateOutcome.err "Flood control exceeded. Retry in 7 seconds".toList
      else CreateOutcome.ok "p".toList "u".toList)
    "T".toList [] 1 3 0 7 [] "Flood control exceeded. Retry in 7 seconds".toList
    rfl (by decide) (by decide)

theorem nodesHaveHref_append (u : Text) : ∀ xs ys : List Node,
    nodesHaveHref (xs ++ ys) u = (nodesHaveHref xs u || nodesHaveHref ys u)
  | [], ys => by simp [nodesHaveHref]
  | x :: xs, ys => by
    simp [nodesHaveHref, nodesHaveHref_append u xs ys, Bool.or_assoc]

theorem linkPages_two (edit : Nat → Bool) (p0 p1 : Page) (hed : ∀ k, edit k = true) :
    linkPages edit [p0, p1]
      = (2, [linkedContent [p0, p1] 0, linkedContent [p0, p1] 1]) := by
  have hnav0 : (navNodesFor [p0, p1] 0).isEmpty = false := by
    simp [navNodesFor]
  have hnav1 : (navNodesFor [p0, p1] 1).isEmpty = false := by
    simp [navNodesFor]
  simp [linkPages, linkLoop, linkRetry, hed 0, hed 1, hnav0, hnav1]

theorem nav_two_zero_has_href (p0 p1 : Page) :
    nodesHaveHref (navNodesFor [p0, p1] 0) p1.url = true := by
  simp [navNodesFor, nodesHaveHref, nodeHasHref, aNode]

theorem nav_two_one_has_href (p0 p1 : Page) :
    nodesHaveHref (navNodesFor [p0, p1] 1) p0.url = true := by
  simp [navNodesFor, nodesHaveHref, nodeHasHref, aNode]

theorem linkedContent_two_zero_has_href (p0 p1 : Page) :
    nodesHaveHref (linkedContent [p0, p1] 0) p1.url = true := by
  have h := nav_two_zero_has_href p0 p1
  simp only [linkedContent, nodesHaveHref_append, nodesHaveHref, nodeHasHref, h]
  simp

theorem linkedContent_two_one_has_href (p0 p1 : Page) :
    nodesHaveHref (linkedContent [p0, p1] 1) p0.url = true := by
  have h := nav_two_one_has_href p0 p1
  simp only [linkedContent, nodesHaveHref_append, nodesHaveHref, nodeHasHref, h]
  simp

theorem publish_single_chunk_no_edits (hash : Text → Text) (convert : Text → List Node)
    (orc : Nat → CreateOutcome) (edit : Nat → Bool) (skipDup : Bool)
    (cache : List (Text × Text)) (saveOk : Bool) (content title : Text)
    (hlen : content.length ≤ SAFE_CHUNK_SIZE) :
    (publish_markdown hash convert orc edit skipDup cache saveOk (some content) title).editCalls
      = 0 := by
  have hchunk : chunkText content = [content] := by
    simp [chunkText, Nat.not_lt.mpr hlen]
  have hfresh : ∀ key,
      (publishFresh convert orc edit key cache saveOk content title).editCalls = 0 := by
    intro key
    unfold publishFresh createAll
    rw [hchunk]
    rcases hcp : createPage1 orc (pageTitleFor title 1 1) (convert content) 1 5 0 []
      with ⟨res, k2, sl⟩
    rcases res with msg | pg
    · simp [createAllGo, hcp]
    · rcases key with _ | kk
      · simp [createAllGo, hcp, linkPages]
      · by_cases hfu : firstUrl [pg] = [] <;> simp [createAllGo, hcp, linkPages, hfu]
  by_cases hsp : content.all pyIsSpace
  · simp [publish_markdown, hsp]
  · cases skipDup
    · simpa [publish_markdown, hsp] using hfresh none
    · rcases hc : lookup cache (hash (content ++ title)) with _ | u
      · simpa [publish_markdown, hsp, hc] using hfresh (some (hash (content ++ title)))
      · simp [publish_markdown, hsp, hc]

/-- C7 counterexample: with two pages whose first edit attempt fails
once and then succeeds, every edit succeeds within the 3-attempt retry
bound, yet 3 edit calls are issued, not exactly 2. -/
theorem link_two_pages_counterexample :
    (linkRetry (fun k => decide (k ≠ 0)) 3 0).1 = true ∧
    (linkRetry (fun k => decide (k ≠ 0)) 3 (linkRetry (fun k => decide (k ≠ 0)) 3 0).2).1
      = true ∧
    (linkPages (fun k => decide (k ≠ 0))
      [(⟨"p0".toList, "u0".toList, "T1".toList, [], 1⟩ : Page),
       ⟨"p1".toList, "u1".toList, "T2".toList, [], 2⟩]).1 = 3 ∧
    (linkPages (fun k => decide (k ≠ 0))
      [(⟨"p0".toList, "u0".toList, "T1".toList, [], 1⟩ : Page),
       ⟨"p1".toList, "u1".toList, "T2".toList, [], 2⟩]).1 ≠ 2 := by
  refine ⟨by decide, by decide, by decide, by decide⟩

/-- C7 amended: a publish whose content fits in a single chunk issues
zero edit calls, and linking two pages issues exactly two edit calls
when every edit call succeeds on its first attempt (one retry would
already add a third call), the edited content of each page containing a
link node whose href is the other page's URL. -/
theorem linking_multipage_claim (hash : Text → Text) (convert : Text → List Node)
    (orc : Nat → CreateOutcome) (ed : Nat → Bool) (skipDup : Bool)
    (cache : List (Text × Text)) (saveOk : Bool) (content title : Text)
    (p0 p1 : Page) (edit : Nat → Bool)
    (hlen : content.length ≤ SAFE_CHUNK_SIZE)
    (hed : ∀ k, edit k = true) :
    (publish_markdown hash convert orc ed skipDup cache saveOk (some content) title).editCalls
      = 0 ∧
    (linkPages edit [p0, p1]).1 = 2 ∧
    nodesHaveHref ((linkPages edit [p0, p1]).2.getD 0 []) p1.url = true ∧
    nodesHaveHref ((linkPages edit [p0, p1]).2.getD 1 []) p0.url = true := by
  rw [linkPages_two edit p0 p1 hed]
  exact ⟨publish_single_chunk_no_edits hash convert orc ed skipDup cache saveOk
      content title hlen,
    rfl,
    linkedContent_two_zero_has_href p0 p1,
    linkedContent_two_one_has_href p0 p1⟩

/-- Witness for the amended C7 at a one-character publish and two
concrete pages with an always-successful edit client. -/
theorem linking_multipage_claim_witness :
    (publish_markdown (fun t => t) (fun _ => [])
        (fun _ => CreateOutcome.ok "p".toList "u".toList) (fun _ => true)
        true [] true (some "a".toList) "t".toList).editCalls = 0 ∧
    (linkPages (fun _ => true)
      [(⟨"p0".toList, "u0".toList, "T1".toList, [], 1⟩ : Page),
       ⟨"p1".toList, "u1".toList, "T2".toList, [], 2⟩]).1 = 2 ∧
    nodesHaveHref ((linkPages (fun _ => true)
      [(⟨"p0".toList, "u0".toList, "T1".toList, [], 1⟩ : Page),
       ⟨"p1".toList, "u1".toList, "T2".toList, [], 2⟩]).2.getD 0 []) "u1".toList = true ∧
    nodesHaveHref ((linkPages (fun _ => true)
      [(⟨"p0".toList, "u0".toList, "T1".toList, [], 1⟩ : Page),
       ⟨"p1".toList, "u1".toList, "T2".toList, [], 2⟩]).2.getD 1 []) "u0".toList = true :=
  linking_multipage_claim (fun t => t) (fun _ => [])
    (fun _ => CreateOutcome.ok "p".toList "u".toList) (fun _ => true) true [] true
    "a".toList "t".toList
    ⟨"p0".toList, "u0".toList, "T1".toList, [], 1⟩
    ⟨"p1".toList, "u1".toList, "T2".toList, [], 2⟩
    (fun _ => true) (by decide) (fun _ => rfl)

theorem batchLoop_total (stopOnError : Bool) :
    ∀ (rs : List UploadResult) (stop : Bool) (acc : BatchUploadResult),
      (batchLoop stopOnError rs stop acc).total = acc.total
  | [], _, acc => rfl
  | r :: rs, stop, acc => by
    by_cases h : stop <;>
      simp [batchLoop, h, recordStep, batchLoop_total stopOnError rs]

theorem batchLoop_false_stats (rs : List UploadResult) :
    ∀ acc : BatchUploadResult,
      (batchLoop false rs false acc).successful + (batchLoop false rs false acc).failed
        = acc.successful + acc.failed + rs.length ∧
      (batchLoop false rs false acc).results.length = acc.results.length + rs.length := by
  induction rs with
  | nil => intro acc; simp [batchLoop]
  | cons r rs ih =>
    intro acc
    have h2 := ih (recordStep acc r)
    have hs : (recordStep acc r).successful + (recordStep acc r).failed
        = acc.successful + acc.failed + 1 := by
      by_cases h : r.success <;> simp [recordStep, h] <;> omega
    have hl : (recordStep acc r).results.length = acc.results.length + 1 := by
      simp [recordStep]
    simp only [batchLoop, Bool.and_false, Bool.false_eq_true, if_false, List.length_cons]
    omega

/-- C2 counterexample: two items with stop_on_error set, where the
failing item completes first: the second result is skipped, so
successful + failed = 1 and len(results) = 1, while total = 2. -/
theorem upload_batch_counterexample :
    (upload_batch [⟨"a".toList, none, some "e".toList, false, false, 0⟩,
        ⟨"b".toList, some "u".toList, none, true, false, 0⟩] true).total = 2 ∧
    (upload_batch [⟨"a".toList, none, some "e".toList, false, false, 0⟩,
        ⟨"b".toList, some "u".toList, none, true, false, 0⟩] true).successful
      + (upload_batch [⟨"a".toList, none, some "e".toList, false, false, 0⟩,
          ⟨"b".toList, some "u".toList, none, true, false, 0⟩] true).failed = 1 ∧
    (upload_batch [⟨"a".toList, none, some "e".toList, false, false, 0⟩,
        ⟨"b".toList, some "u".toList, none, true, false, 0⟩] true).results.length = 1 := by
  refine ⟨rfl, rfl, rfl⟩

/-- C2 amended: result.total = len(items) for every batch and every
stopOnError setting; and when stopOnError is not set (the default used
by the gallery pipeline), successful + failed = total and
len(results) = total for every success/failure mix, all-fail and
all-succeed included. With stopOnError set and an early failure,
later-completing results are dropped from the counts. -/
theorem upload_batch_invariants (completions : List UploadResult) (stopOnError : Bool) :
    (upload_batch completions stopOnError).total = completions.length ∧
    (upload_batch completions false).successful
      + (upload_batch completions false).failed
      = (upload_batch completions false).total ∧
    (upload_batch completions false).results.length
      = (upload_batch completions false).total := by
  have ht := batchLoop_total stopOnError completions false
    { total := completions.length, successful := 0, failed := 0, results := [] }
  have ht2 := batchLoop_total false completions false
    { total := completions.length, successful := 0, failed := 0, results := [] }
  have hs := batchLoop_false_stats completions
    { total := completions.length, successful := 0, failed := 0, results := [] }
  refine ⟨ht, ?_, ?_⟩ <;> simp [upload_batch] at * <;> omega

/-- C3 counterexample: with the shipped _UPLOAD_DISABLED = true, upload
on an existing image with a perfectly working client raises UploadError
immediately, with zero upload attempts made — contradicting the claim
that UploadError only follows exhausted retries. -/
theorem upload_disabled_counterexample :
    upload _UPLOAD_DISABLED true (Except.ok "img.jpg".toList)
        (fun _ => UploadOutcome.valid "/file/x.jpg".toList) "img.jpg".toList 3
      = (UpRes.errDisabled, 0) ∧
    isUploadError UpRes.errDisabled = true :=
  ⟨rfl, rfl⟩

theorem retryGo_spec (outcome : Nat → UploadOutcome) (p : Text) (total : Nat) :
    ∀ (n made : Nat),
      (∃ u k, retryGo outcome p total n made = (UpRes.ok u, k) ∧ made < k ∧ k ≤ made + n)
      ∨ retryGo outcome p total n made = (UpRes.errExhausted p total, made + n)
  | 0, made => Or.inr (by simp [retryGo])
  | n + 1, made => by
    rcases ho : outcome made with src | _ | msg
    · exact Or.inl ⟨telegraphBase ++ src, made + 1, by simp [retryGo, ho],
        Nat.lt_succ_self made, by omega⟩
    · rcases retryGo_spec outcome p total n (made + 1) with ⟨u, k, he, hk1, hk2⟩ | he
      · exact Or.inl ⟨u, k, by simp [retryGo, ho, he], by omega, by omega⟩
      · refine Or.inr ?_
        rw [show made + (n + 1) = made + 1 + n by omega]
        simpa [retryGo, ho] using he
    · rcases retryGo_spec outcome p total n (made + 1) with ⟨u, k, he, hk1, hk2⟩ | he
      · exact Or.inl ⟨u, k, by simp [retryGo, ho, he], by omega, by omega⟩
      · refine Or.inr ?_
        rw [show made + (n + 1) = made + 1 + n by omega]
        simpa [retryGo, ho] using he

/-- C3 amended: with the kill switch off, upload on an existing image
whose pre-upload step succeeds attempts the remote upload up to
`retries` times: it either returns the uploaded URL after between 1 and
`retries` calls, or fails with an UploadError naming the item and the
attempt count only after all `retries` calls were made. As shipped,
_UPLOAD_DISABLED is true and upload instead raises UploadError before
any attempt (see the counterexample). -/
theorem upload_retry_contract (outcome : Nat → UploadOutcome) (path cp : Text)
    (retries : Nat) (h : 0 < retries) :
    (∃ u k, upload false true (Except.ok cp) outcome path retries = (UpRes.ok u, k)
        ∧ 0 < k ∧ k ≤ retries)
    ∨ (upload false true (Except.ok cp) outcome path retries
        = (UpRes.errExhausted path retries, retries) ∧ 0 < retries) := by
  rcases retryGo_spec outcome path retries retries 0 with ⟨u, k, he, hk1, hk2⟩ | he
  · exact Or.inl ⟨u, k, by simpa [upload] using he, hk1, by omega⟩
  · exact Or.inr ⟨by simpa [upload] using he, h⟩

/-- Witness for the amended C3: an always-failing client with 2 retries
ends in UploadError naming the path and both attempts. -/
theorem upload_retry_contract_witness :
    0 < 2 ∧
    ((∃ u k, upload false true (Except.ok "img.jpg".toList)
        (fun _ => UploadOutcome.exn "boom".toList) "img.jpg".toList 2 = (UpRes.ok u, k)
        ∧ 0 < k ∧ k ≤ 2)
      ∨ (upload false true (Except.ok "img.jpg".toList)
          (fun _ => UploadOutcome.exn "boom".toList) "img.jpg".toList 2
          = (UpRes.errExhausted "img.jpg".toList 2, 2) ∧ 0 < 2)) :=
  ⟨by decide,
   upload_retry_contract (fun _ => UploadOutcome.exn "boom".toList)
     "img.jpg".toList "img.jpg".toList 2 (by decide)⟩

theorem tryQuality_le (size : Nat → Nat) (maxSize : Nat) :
    ∀ (qs : List Nat) (r : Nat),
      _try_quality_compression size maxSize qs = some r → r ≤ maxSize
  | [], r => by simp [_try_quality_compression]
  | q :: qs, r => by
    by_cases h : size q ≤ maxSize
    · simp only [_try_quality_compression, h, if_true, Option.some.injEq]
      rintro rfl
      exact h
    · simp only [_try_quality_compression, h, if_false]
      exact tryQuality_le size maxSize qs r

theorem tryScale_le (size : Nat → Nat → Nat) (maxSize : Nat) :
    ∀ (ss : List Nat) (r : Nat),
      _try_scale_compression size maxSize ss = some r → r ≤ maxSize
  | [], r => by simp [_try_scale_compression]
  | sc :: ss, r => by
    rcases hq : _try_quality_compression (size sc) maxSize scaleQualityLadder with _ | r0
    · simp only [_try_scale_compression, hq]
      exact tryScale_le size maxSize ss r
    · simp only [_try_scale_compression, hq, Option.some.injEq]
      rintro rfl
      exact tryQuality_le (size sc) maxSize scaleQualityLadder r0 hq

/-- C6: with Pillow available, compress(path, maxBytes) returns the
input path unchanged (wasCompressed=false) for every image of size at
most maxBytes; for an image one byte over, it either fails with
ConversionError (GIF, or nothing fits) or compresses, and every
successfully returned compressed output is at most maxBytes. -/
theorem compress_boundary_claim (size : Nat → Nat → Nat) (path : Text)
    (skipFormat : Bool) (maxSize fileSize : Nat) :
    (fileSize ≤ maxSize →
      compress_image_to_size true size path fileSize skipFormat maxSize
        = CompressRes.unchanged path) ∧
    (fileSize = maxSize + 1 →
      compress_image_to_size true size path fileSize skipFormat maxSize
          = CompressRes.convError
        ∨ ∃ r, r ≤ maxSize ∧
            compress_image_to_size true size path fileSize skipFormat maxSize
              = CompressRes.compressed r) := by
  constructor
  · intro hle
    simp [compress_image_to_size, hle]
  · intro hover
    subst hover
    have hnle : ¬ (maxSize + 1 ≤ maxSize) := by omega
    by_cases hs : skipFormat
    · exact Or.inl (by simp [compress_image_to_size, hnle, hs])
    · rcases hq : _try_quality_compression (size 10) maxSize qualityLadder with _ | r
      · rcases hsc : _try_scale_compression size maxSize scaleTenthsLadder with _ | r
        · exact Or.inl (by simp [compress_image_to_size, hnle, hs, hq, hsc])
        · exact Or.inr ⟨r, tryScale_le size maxSize scaleTenthsLadder r hsc,
            by simp [compress_image_to_size, hnle, hs, hq, hsc]⟩
      · exact Or.inr ⟨r, tryQuality_le (size 10) maxSize qualityLadder r hq,
          by simp [compress_image_to_size, hnle, hs, hq]⟩

/-- Witness for C6: an encoder that always produces 40 bytes, with
maxBytes = 100, a 100-byte file (returned unchanged) and a 101-byte
file (compressed to at most 100 bytes). -/
theorem compress_boundary_claim_witness :
    (compress_image_to_size true (fun _ _ => 40) "img.png".toList 100 false 100
      = CompressRes.unchanged "img.png".toList) ∧
    (compress_image_to_size true (fun _ _ => 40) "img.png".toList 101 false 100
        = CompressRes.convError
      ∨ ∃ r, r ≤ 100 ∧
          compress_image_to_size true (fun _ _ => 40) "img.png".toList 101 false 100
            = CompressRes.compressed r) :=
  ⟨(compress_boundary_claim (fun _ _ => 40) "img.png".toList false 100 100).1 (by decide),
   (compress_boundary_claim (fun _ _ => 40) "img.png".toList false 100 101).2 rfl⟩

